import Mathlib

/-!
Shallow embedding of the whaple SDK core (smart routing, Firebase-backed
message queue, health checking, and the direct WhatsApp connection state
machine), translated from `src/Whaple.ts`, `src/QueueManager.ts`,
`src/HealthChecker.ts` and `src/WhatsAppConnection.ts`.

Conventions of the embedding:
* asynchronous methods that can reject become functions into `Except String _`;
* the outcomes of external collaborators (the Firebase write, the HTTP health
  probe, the Baileys socket send) are passed in as explicit parameters;
* JavaScript `undefined` for an absent object property is modelled as `none`
  of an `Option`;
* timestamps are natural numbers (milliseconds).
-/

/-- Lexical (elementwise) order on strings, stated over their character
lists so that it evaluates by kernel reduction.  This is the usual
lexicographic string comparison. -/
def charsLt (a b : String) : Prop := @LT.lt (List Char) List.instLT a.data b.data

instance : DecidableRel charsLt := fun a b => List.hasDecidableLt a.data b.data

theorem charsLt_irrefl (a : String) : ¬ charsLt a a :=
  List.lt_irrefl (fun x => lt_irrefl x) a.data

theorem charsLt_trans {a b c : String} : charsLt a b → charsLt b c → charsLt a c :=
  List.lt_trans (α := Char) Nat.lt_trans
    (fun h1 h2 => Nat.not_lt.2 (Nat.le_trans (Nat.not_lt.1 h2) (Nat.not_lt.1 h1)))

theorem charsLt_asymm {a b : String} (h : charsLt a b) : ¬ charsLt b a :=
  fun h2 => charsLt_irrefl a (charsLt_trans h h2)

theorem charsLt_ne {a b : String} (h : charsLt a b) : a ≠ b :=
  fun he => charsLt_irrefl a (he ▸ h)

/-- Result object returned by the send and queue APIs
(`SendMessageResult` in `src/types.ts`; the `queueId` and `key` fields are
never read by the core and are elided). -/
structure SendMessageResult where
  success : Bool
  method : String
  messageId : String
  timestamp : Nat
  position : Option Int
  error : Option String
deriving Repr, DecidableEq

namespace QueueManager

/-- The worker heartbeat record read from `server_status/heartbeat`. -/
structure Heartbeat where
  alive : Bool
  lastSeen : Nat
deriving Repr, DecidableEq

/-- The object literal actually returned by `QueueManager.getQueueStatus`
(lines 168-177 of `src/QueueManager.ts`).  The `serverAlive` field models a
JavaScript property lookup on that object: the code of `getQueueStatus`
never assigns it, so reading it yields `undefined`, i.e. `none` here
(the local `isServerAlive` computed at lines 164-166 is dropped). -/
structure QueueStatus where
  totalMessages : Nat
  pendingMessages : Nat
  processingMessages : Nat
  sentMessages : Nat
  failedMessages : Nat
  isProcessing : Bool
  serverAlive : Option Bool
deriving Repr, DecidableEq

/-- The local `isServerAlive` computed inside `getQueueStatus`
(lines 164-166): heartbeat present, `alive === true`, and seen within the
last minute.  (JavaScript computes `Date.now() - lastSeen` which may be
negative for a future `lastSeen`; truncated `Nat` subtraction gives `0`
there, and both sides then pass the `< 60000` test.) -/
def isServerAlive (hb : Option Heartbeat) (now : Nat) : Bool :=
  match hb with
  | some h => h.alive && decide (now - h.lastSeen < 60000)
  | none => false

/-- `QueueManager.getQueueStatus` (lines 152-188), success path.  Inputs are
the sizes of the `pending` and `processing` partitions and the heartbeat
snapshot.  Note that the returned object does NOT carry the computed
liveness bit: `serverAlive := none`. -/
def getQueueStatus (pendingCount processingCount : Nat)
    (_hb : Option Heartbeat) (_now : Nat) : QueueStatus :=
  { totalMessages := pendingCount + processingCount
    pendingMessages := pendingCount
    processingMessages := processingCount
    sentMessages := 0
    failedMessages := 0
    isProcessing := decide (processingCount > 0)
    serverAlive := none }

/-- An entry of the `pending` partition, projected to the two fields the
position computation reads: the record key (message id) and `queuedAt`.
A partition state is a `List PendingEntry` in the store's canonical
enumeration order (ascending keys), with distinct keys. -/
abbrev PendingEntry := String × Nat

/-- Comparator used by `getQueuePosition`:
`(a, b) => messages[a].queuedAt - messages[b].queuedAt` (ascending
`queuedAt`; `Array.prototype.sort` is stable). -/
def queuedAtLE (a b : PendingEntry) : Prop := a.2 ≤ b.2

instance : DecidableRel queuedAtLE :=
  fun a b => inferInstanceAs (Decidable (a.2 ≤ b.2))

/-- `Array.prototype.indexOf` over the id column: 0-based index of the
first entry with the given id, `-1` when absent. -/
def indexOfId (mid : String) : List PendingEntry → Int
  | [] => -1
  | p :: rest =>
    if p.1 = mid then 0
    else
      let r := indexOfId mid rest
      if r = -1 then -1 else r + 1

/-- `QueueManager.getQueuePosition` (lines 266-282): `-1` for an empty
`pending` partition, else the index of the id among the keys stably sorted
by ascending `queuedAt`. -/
def getQueuePosition (pending : List PendingEntry) (mid : String) : Int :=
  if pending.isEmpty then -1
  else indexOfId mid (List.insertionSort queuedAtLE pending)

/-- Strict order from the specification text: ascending `queuedAt`, ties
broken by lexical order of the record id. -/
def lexRankLT (a b : PendingEntry) : Prop :=
  a.2 < b.2 ∨ (a.2 = b.2 ∧ charsLt a.1 b.1)

instance : DecidableRel lexRankLT :=
  fun a b => inferInstanceAs (Decidable (a.2 < b.2 ∨ (a.2 = b.2 ∧ charsLt a.1 b.1)))

/-- Strict key order of a canonical enumeration of a partition map. -/
def idLt (a b : PendingEntry) : Prop := charsLt a.1 b.1

instance : DecidableRel idLt := fun a b => inferInstanceAs (Decidable (charsLt a.1 b.1))

/-- Spec-side rendering of §3 Queue Position, following the spec's words
(for comparison with `getQueuePosition`): the 0-based rank of the record
with the given id within `pending` under `lexRankLT`, i.e. the number of
records strictly ahead of it; `-1` if the id is not in `pending`. -/
def specQueuePosition (pending : List PendingEntry) (mid : String) : Int :=
  match pending.find? (fun y => y.1 == mid) with
  | none => -1
  | some target => (pending.countP (fun y => decide (lexRankLT y target)) : Int)

/-- The record written to `pending/{messageId}` by `addMessage`
(lines 120-134), projected to the fields the claims read.  Its `position`
field is computed by `getQueuePosition` BEFORE the write, over the
pre-write pending partition. -/
structure StoredQueueRecord where
  id : String
  status : String
  timestamp : Nat
  retryCount : Nat
  position : Int
  queuedAt : Nat
  attempts : Nat
deriving Repr, DecidableEq

/-- The `queueData` record as persisted by `addMessage`. -/
def storedQueueData (mid : String) (pending : List PendingEntry) (now : Nat) :
    StoredQueueRecord :=
  { id := mid
    status := "pending"
    timestamp := now
    retryCount := 0
    position := getQueuePosition pending mid
    queuedAt := now
    attempts := 0 }

/-- Enumeration order of the `pending` map after writing the new key:
the new `(id, queuedAt)` entry inserted at its key-ordered place
(non-strict key order). -/
def idLE (a b : PendingEntry) : Prop := ¬ charsLt b.1 a.1

instance : DecidableRel idLE :=
  fun a b => inferInstanceAs (Decidable (¬ charsLt b.1 a.1))

/-- The pending partition after `addMessage` writes its record. -/
def pendingAfterAdd (mid : String) (pending : List PendingEntry) (now : Nat) :
    List PendingEntry :=
  List.orderedInsert idLE (mid, now) pending

/-- The result object `addMessage` returns on success (lines 136-142):
`method: 'queued'`, and `position` recomputed by a second
`getQueuePosition` call AFTER the write. -/
def addOkResult (mid : String) (pending : List PendingEntry) (now : Nat) :
    SendMessageResult :=
  { success := true
    method := "queued"
    messageId := mid
    timestamp := now
    position := some (getQueuePosition (pendingAfterAdd mid pending now) mid)
    error := none }

/-- `QueueManager.addMessage` (lines 117-146).  `writeOk` is the outcome of
the Firebase `set`; on failure the method throws
`Failed to queue message: ...` (the store's own message is abstracted). -/
def addMessage (mid : String) (pending : List PendingEntry) (now : Nat)
    (writeOk : Bool) : Except String SendMessageResult :=
  if writeOk then Except.ok (addOkResult mid pending now)
  else Except.error ("Failed to queue message: write failed")

/-- Result shape of `conditionalAdd` (lines 91-99 of `src/QueueManager.ts`,
projected to the fields the claims read). -/
structure ConditionalAddResult where
  success : Bool
  method : String
  reason : Option String
  messageId : Option String
  position : Option Int
deriving Repr, DecidableEq

/-- `QueueManager.evaluateConditions` (lines 477-509).  A caller-supplied
predicate is a function on the queue status that may throw
(`Except.error`).  Without one, the default policy reads
`queueStatus.serverAlive`, which is truthy only when the property is
present and `true`. -/
def evaluateConditions (qs : QueueStatus)
    (custom : Option (QueueStatus → Except String Bool)) : Bool × String :=
  match custom with
  | none =>
    if qs.serverAlive ≠ some true then (true, "server_offline")
    else if qs.totalMessages > 0 then (true, "queue_not_empty")
    else (false, "server_online_queue_empty")
  | some f =>
    match f qs with
    | Except.ok b =>
      (b, if b then "custom_condition_met" else "custom_condition_failed")
    | Except.error e => (false, "custom_condition_error: " ++ e)

/-- `QueueManager.conditionalAdd` (lines 441-469). -/
def conditionalAdd (qs : QueueStatus)
    (custom : Option (QueueStatus → Except String Bool))
    (mid : String) (pending : List PendingEntry) (now : Nat)
    (writeOk : Bool) : Except String ConditionalAddResult :=
  let shouldAdd := evaluateConditions qs custom
  if shouldAdd.1 then
    match addMessage mid pending now writeOk with
    | Except.ok r =>
      Except.ok
        { success := true
          method := "queued"
          reason := none
          messageId := some r.messageId
          position := r.position }
    | Except.error e => Except.error ("Conditional add failed: " ++ e)
  else
    Except.ok
      { success := false
        method := "condition_failed"
        reason := some shouldAdd.2
        messageId := none
        position := none }

end QueueManager

namespace HealthChecker

/-- Outcome of one HTTP probe against the `/health` endpoint
(`checkServerHealth` registers exactly these three event handlers). -/
inductive ProbeOutcome where
  | response (statusCode : Nat)
  | timeout
  | networkError
deriving Repr, DecidableEq

/-- `HealthChecker.checkServerHealth` (lines 108-143): resolves `true` on a
200 response and `false` on any other status, on timeout and on a request
error; the promise never rejects. -/
def checkServerHealth : ProbeOutcome → Bool
  | ProbeOutcome.response c => c == 200
  | ProbeOutcome.timeout => false
  | ProbeOutcome.networkError => false

/-- The mutable health cache (lines 13-17, 39-43). -/
structure HealthCache where
  lastCheck : Option Nat
  lastResult : Option Bool
  cacheTimeMs : Nat
deriving Repr, DecidableEq

/-- Cache state set up by the constructor. -/
def initialCache : HealthCache :=
  { lastCheck := none, lastResult := none, cacheTimeMs := 5000 }

/-- `HealthChecker.isCacheValid` (lines 248-255).  JavaScript tests
`!this.cache.lastCheck`, so a stored timestamp of `0` also counts as
"no check yet". -/
def isCacheValid (c : HealthCache) (now : Nat) : Bool :=
  match c.lastCheck with
  | none => false
  | some t => if t = 0 then false else decide (now - t < c.cacheTimeMs)

/-- `HealthChecker.isServerHealthy` (lines 50-75): cached result while the
cache is valid, else a fresh probe whose boolean is cached and returned.
`checkServerHealth` is total, so the `catch` branch (which would also
return `false`) is unreachable; a failing probe already surfaces as a
`false` return value, never as a thrown error. -/
def isServerHealthy (c : HealthCache) (now : Nat) (probe : ProbeOutcome) :
    Bool × HealthCache :=
  if isCacheValid c now then (c.lastResult.getD false, c)
  else
    let r := checkServerHealth probe
    (r, { c with lastCheck := some now, lastResult := some r })

end HealthChecker

namespace Whaple

/-- Constructor default for `queueThreshold`
(`(config as any).queueThreshold || 0`, line 39 of `src/Whaple.ts`;
`0` is falsy in JavaScript, so a configured `0` and an absent value both
yield `0`). -/
def queueThresholdOrDefault (configured : Option Nat) : Nat :=
  match configured with
  | some n => n
  | none => 0

/-- The routing predicate computed by `smartRoutingDecision`
(lines 219-221 of `src/Whaple.ts`). -/
def shouldUseQueue (isHealthy : Bool) (qs : QueueManager.QueueStatus)
    (queueThreshold : Nat) : Bool :=
  !isHealthy || decide (qs.pendingMessages > queueThreshold)
    || decide (qs.processingMessages > 0)

/-- `Whaple.sendDirectWithFallback` (lines 242-271).  `direct` is the
outcome of `apiClient.sendMessage` (its message id on success), `enqueue`
the outcome of the fallback `queueManager.addMessage`.  A failed direct
attempt whose fallback enqueue also throws propagates that error. -/
def sendDirectWithFallback (direct : Except String String)
    (enqueue : Except String SendMessageResult) (now : Nat) :
    Except String SendMessageResult :=
  match direct with
  | Except.ok mid =>
    Except.ok
      { success := true
        method := "direct"
        messageId := mid
        timestamp := now
        position := none
        error := none }
  | Except.error e =>
    match enqueue with
    | Except.ok q =>
      Except.ok
        { success := q.success
          method := q.method
          messageId := q.messageId
          timestamp := q.timestamp
          position := q.position
          error := some ("Fallback: " ++ e) }
    | Except.error e2 => Except.error e2

/-- `Whaple.smartRoutingDecision` (lines 212-237).  The surrounding
`try`/`catch` falls back to `queueManager.addMessage` on any error raised
inside the block; the enqueue outcome is deterministic within one call, so
the retry evaluates to the same `addMessage` result. -/
def smartRoutingDecision (isHealthy : Bool) (qs : QueueManager.QueueStatus)
    (queueThreshold : Nat) (direct : Except String String) (mid : String)
    (pending : List QueueManager.PendingEntry) (now : Nat) (writeOk : Bool) :
    Except String SendMessageResult :=
  let enqueue := QueueManager.addMessage mid pending now writeOk
  let attempt :=
    if shouldUseQueue isHealthy qs queueThreshold then enqueue
    else sendDirectWithFallback direct enqueue now
  match attempt with
  | Except.ok r => Except.ok r
  | Except.error _ => enqueue

/-- The smart-routing path of `Whaple.sendMessage` (lines 164-207,
`enableSmartRouting` branch): any error escaping `smartRoutingDecision`
is rethrown as `Failed to send message: ...`. -/
def sendMessageSmart (isHealthy : Bool) (qs : QueueManager.QueueStatus)
    (queueThreshold : Nat) (direct : Except String String) (mid : String)
    (pending : List QueueManager.PendingEntry) (now : Nat) (writeOk : Bool) :
    Except String SendMessageResult :=
  match smartRoutingDecision isHealthy qs queueThreshold direct mid pending now writeOk with
  | Except.ok r => Except.ok r
  | Except.error e => Except.error ("Failed to send message: " ++ e)

/-- `Whaple.normalizePhoneNumber` (lines 418-432): reject an empty input,
strip every character that is neither a digit nor `+`, then prepend `+`
unless the remainder already starts with one. -/
def normalizePhoneNumber (number : String) : Except String String :=
  if number = "" then Except.error ("Phone number is required")
  else
    let kept := number.toList.filter (fun c => c.isDigit || c == '+')
    let normalized := if kept.head? = some '+' then kept else '+' :: kept
    Except.ok (String.mk normalized)

/-- Canonical destination form as worded by the spec (for comparison with
`normalizePhoneNumber`): a leading `+` followed only by digits. -/
def specCanonicalForm (s : String) : Bool :=
  match s.toList with
  | [] => false
  | c :: rest => c == '+' && rest.all Char.isDigit

/-- Inputs whose only `+`, if any, is their first character (every later
character is not a `+`). -/
def noPlusAfterFirstChar (s : String) : Bool :=
  (s.toList.drop 1).all (fun c => c != '+')

end Whaple

namespace WhatsAppConnection

/-- Instance state of `WhatsAppConnection` (`src/WhatsAppConnection.ts`,
lines 15-30) together with the process timer bookkeeping the reconnect
scheduler manipulates:
* `timers` is the multiset of live `setTimeout` handles created by
  `scheduleReconnect` (handle, delay in ms) whose callbacks have not yet
  run and have not been cancelled;
* `reconnectTimeout` is the `this.reconnectTimeout` field, i.e. the handle
  most recently stored (stale once that timer fires);
* `restartTimers` counts the live 1000 ms `setTimeout` callbacks created
  by the `restartRequired` branch of the close handler;
* `hasSock` records whether `this.sock` is set (a socket has been built by
  `connect()`), which is what gates the event handlers. -/
structure ConnState where
  hasSock : Bool
  isConnected : Bool
  isAuthenticated : Bool
  userInfo : Option String
  reconnectAttempts : Nat
  isReconnecting : Bool
  connectionState : String
  currentQR : Option String
  lastQRTime : Option Nat
  reconnectTimeout : Option Nat
  timers : List (Nat × Nat)
  restartTimers : Nat
  nextHandle : Nat
deriving Repr, DecidableEq

def MAX_RECONNECT_ATTEMPTS : Nat := 3

def BASE_RECONNECT_DELAY : Nat := 5000

def MAX_RECONNECT_DELAY : Nat := 60000

/-- Baileys `DisconnectReason.loggedOut`. -/
def loggedOut : Nat := 401

/-- Baileys `DisconnectReason.restartRequired`. -/
def restartRequired : Nat := 515

/-- Field initialisers of the class (lines 16-28). -/
def initState : ConnState :=
  { hasSock := false
    isConnected := false
    isAuthenticated := false
    userInfo := none
    reconnectAttempts := 0
    isReconnecting := false
    connectionState := "disconnected"
    currentQR := none
    lastQRTime := none
    reconnectTimeout := none
    timers := []
    restartTimers := 0
    nextHandle := 0 }

/-- `calculateReconnectDelay` (lines 41-47); `jitter` stands for the
sampled `Math.random() * 1000`, so `jitter ≤ 1000`. -/
def calculateReconnectDelay (attempts jitter : Nat) : Nat :=
  min (BASE_RECONNECT_DELAY * 2 ^ attempts) MAX_RECONNECT_DELAY + jitter

/-- `scheduleReconnect` (lines 49-73): a no-op that clears `isReconnecting`
once the attempt ceiling is reached; a no-op while `isReconnecting`;
otherwise sets the flag and creates one reconnect timer, storing its
handle in `reconnectTimeout` (overwriting whatever handle was there). -/
def scheduleReconnect (jitter : Nat) (s : ConnState) : ConnState :=
  if s.reconnectAttempts ≥ MAX_RECONNECT_ATTEMPTS then
    { s with isReconnecting := false }
  else if s.isReconnecting then s
  else
    { s with
      isReconnecting := true
      reconnectTimeout := some s.nextHandle
      timers := s.timers ++ [(s.nextHandle, calculateReconnectDelay s.reconnectAttempts jitter)]
      nextHandle := s.nextHandle + 1 }

/-- `resetReconnectState` (lines 75-82): zeroes the attempt counter and
flag, and `clearTimeout`s only the timer whose handle is currently stored
in `reconnectTimeout`. -/
def resetReconnectState (s : ConnState) : ConnState :=
  { s with
    reconnectAttempts := 0
    isReconnecting := false
    reconnectTimeout := none
    timers :=
      match s.reconnectTimeout with
      | some h => s.timers.filter (fun t => t.1 ≠ h)
      | none => s.timers }

/-- The `qr` branch of the `connection.update` handler (lines 142-154). -/
def handleQR (qr : String) (now : Nat) (s : ConnState) : ConnState :=
  if s.connectionState ≠ "waiting_for_qr" then
    resetReconnectState
      { s with
        currentQR := some qr
        lastQRTime := some now
        connectionState := "waiting_for_qr"
        isAuthenticated := false
        isConnected := false }
  else s

/-- Lines 166-168 of the close handler, run before any branch: the
connection flag, state string and `isReconnecting` are cleared. -/
def closeBase (s : ConnState) : ConnState :=
  { s with
    isConnected := false
    connectionState := "disconnected"
    isReconnecting := false }

/-- The `connection === "close"` branch of the handler (lines 156-187).
`code` is `lastDisconnect?.error?.output?.statusCode` (`none` when the
chain is undefined; `shouldReconnect` is then still true since
`undefined !== DisconnectReason.loggedOut`).  Note the handler clears
`isReconnecting` (line 168, `closeBase`) before any branch tests it. -/
def handleClose (code : Option Nat) (jitter : Nat) (s : ConnState) : ConnState :=
  if code = some loggedOut then
    resetReconnectState
      { closeBase s with
        isAuthenticated := false
        userInfo := none
        currentQR := none
        lastQRTime := none }
  else if code = some restartRequired then
    { closeBase s with
      reconnectAttempts := 0
      restartTimers := (closeBase s).restartTimers + 1 }
  else if code ≠ some loggedOut ∧ (closeBase s).isReconnecting = false then
    scheduleReconnect jitter (closeBase s)
  else
    resetReconnectState (closeBase s)

/-- The `connection === "open"` branch (lines 188-206); `user` is
`sock.user`, recorded when present. -/
def handleOpen (user : Option String) (s : ConnState) : ConnState :=
  let s1 := resetReconnectState
    { s with
      isConnected := true
      isAuthenticated := true
      connectionState := "connected"
      currentQR := none
      lastQRTime := none }
  match user with
  | some u => { s1 with userInfo := some u }
  | none => s1

/-- The `connection === "connecting"` branch (lines 207-211). -/
def handleConnecting (s : ConnState) : ConnState :=
  { s with connectionState := "connecting", isConnected := false }

/-- `connect()` succeeding up to `makeWASocket` (lines 108-214): the socket
is created and the event handlers installed; no connection flag changes. -/
def connectOk (s : ConnState) : ConnState :=
  { s with hasSock := true }

/-- The `catch` of `connect()` (lines 215-220). -/
def connectFail (jitter : Nat) (s : ConnState) : ConnState :=
  scheduleReconnect jitter { s with isConnected := false, isAuthenticated := false }

/-- `disconnect()` (lines 223-234). -/
def disconnect (s : ConnState) : ConnState :=
  resetReconnectState { s with isConnected := false, isAuthenticated := false }

/-- The synchronous flag-clearing done by `forceReconnect` and
`resetAuthentication` (lines 236-264) before their delayed `connect()`,
which is a later `connectOk`/`connectFail` step. -/
def forceReconnectReset (s : ConnState) : ConnState :=
  disconnect (resetReconnectState
    { s with
      isConnected := false
      isAuthenticated := false
      userInfo := none
      currentQR := none
      lastQRTime := none })

/-- A pending `restartRequired` 1000 ms timer fires:
`setTimeout(() => this.scheduleReconnect(), 1000)` (line 180). -/
def fireRestartTimer (jitter : Nat) (s : ConnState) : ConnState :=
  if s.restartTimers = 0 then s
  else scheduleReconnect jitter { s with restartTimers := s.restartTimers - 1 }

/-- A pending reconnect timer fires and its `connect()` reaches
`makeWASocket` (lines 69-72): the attempt counter is incremented first. -/
def fireReconnectTimerOk (h : Nat) (s : ConnState) : ConnState :=
  if s.timers.any (fun t => t.1 = h) then
    connectOk
      { s with
        timers := s.timers.filter (fun t => t.1 ≠ h)
        reconnectAttempts := s.reconnectAttempts + 1 }
  else s

/-- A pending reconnect timer fires and its `connect()` throws. -/
def fireReconnectTimerFail (h jitter : Nat) (s : ConnState) : ConnState :=
  if s.timers.any (fun t => t.1 = h) then
    connectFail jitter
      { s with
        timers := s.timers.filter (fun t => t.1 ≠ h)
        reconnectAttempts := s.reconnectAttempts + 1 }
  else s

/-- Dispatch through `sock.sendMessage` (lines 300-315): `sockOutcome`
carries the backend-assigned key id on success; a rejection is rethrown. -/
def dispatchOutcome (sockOutcome : Except String String) (now : Nat) :
    Except String SendMessageResult :=
  match sockOutcome with
  | Except.ok keyId =>
    Except.ok
      { success := true
        method := "direct"
        messageId := keyId
        timestamp := now
        position := none
        error := none }
  | Except.error e => Except.error e

/-- `WhatsAppConnection.sendMessage` (lines 283-316): guarded by
`!this.isConnected || !this.sock`, then dispatches. -/
def sendMessage (s : ConnState) (sockOutcome : Except String String)
    (now : Nat) : Except String SendMessageResult :=
  if s.isConnected = false ∨ s.hasSock = false then
    Except.error ("WhatsApp not connected")
  else dispatchOutcome sockOutcome now

/-- States of a `WhatsAppConnection` instance reachable through its public
methods and the events its installed handlers can receive (handlers exist
only once a socket does, hence the `hasSock` side conditions). -/
inductive Reachable : ConnState → Prop where
  | stepInit : Reachable initState
  | stepConnectOk {s : ConnState} : Reachable s → Reachable (connectOk s)
  | stepConnectFail {s : ConnState} (jitter : Nat) :
      Reachable s → Reachable (connectFail jitter s)
  | stepQR {s : ConnState} (qr : String) (now : Nat) :
      Reachable s → s.hasSock = true → Reachable (handleQR qr now s)
  | stepClose {s : ConnState} (code : Option Nat) (jitter : Nat) :
      Reachable s → s.hasSock = true → Reachable (handleClose code jitter s)
  | stepOpen {s : ConnState} (user : Option String) :
      Reachable s → s.hasSock = true → Reachable (handleOpen user s)
  | stepConnecting {s : ConnState} :
      Reachable s → s.hasSock = true → Reachable (handleConnecting s)
  | stepDisconnect {s : ConnState} : Reachable s → Reachable (disconnect s)
  | stepForceReset {s : ConnState} : Reachable s → Reachable (forceReconnectReset s)
  | stepFireRestart {s : ConnState} (jitter : Nat) :
      Reachable s → Reachable (fireRestartTimer jitter s)
  | stepFireTimerOk {s : ConnState} (h : Nat) :
      Reachable s → Reachable (fireReconnectTimerOk h s)
  | stepFireTimerFail {s : ConnState} (h jitter : Nat) :
      Reachable s → Reachable (fireReconnectTimerFail h jitter s)

end WhatsAppConnection

/-! ## Queue position: ranking lemmas -/

namespace QueueManager

theorem lexRankLT_irrefl (a : PendingEntry) : ¬ lexRankLT a a := by
  rintro (h | ⟨-, h⟩)
  · exact Nat.lt_irrefl _ h
  · exact charsLt_irrefl _ h

theorem lexRankLT_asymm {a b : PendingEntry} (h : lexRankLT a b) : ¬ lexRankLT b a := by
  rintro (h2 | ⟨he2, h2⟩) <;> rcases h with h1 | ⟨he1, h1⟩
  · exact Nat.lt_irrefl _ (Nat.lt_trans h1 h2)
  · exact Nat.lt_irrefl _ (he1 ▸ h2)
  · exact Nat.lt_irrefl _ (he2 ▸ h1)
  · exact charsLt_asymm h1 h2

theorem lexRankLT_snd_le {a b : PendingEntry} (h : lexRankLT a b) : a.2 ≤ b.2 := by
  rcases h with h | ⟨he, -⟩
  · exact Nat.le_of_lt h
  · exact Nat.le_of_eq he

theorem pairwise_lexRankLT_orderedInsert (x : PendingEntry) :
    ∀ s : List PendingEntry, List.Pairwise lexRankLT s →
      (∀ y ∈ s, charsLt x.1 y.1) →
      List.Pairwise lexRankLT (List.orderedInsert queuedAtLE x s) := by
  intro s
  induction s with
  | nil => intro _ _; simp [List.orderedInsert]
  | cons h t ih =>
    intro hpair hx
    rcases List.pairwise_cons.mp hpair with ⟨hht, hpt⟩
    by_cases hle : queuedAtLE x h
    · rw [List.orderedInsert, if_pos hle]
      refine List.pairwise_cons.mpr ⟨?_, hpair⟩
      intro y hy
      rcases List.mem_cons.mp hy with rfl | hyt
      · rcases Nat.lt_or_eq_of_le hle with hlt | heq
        · exact Or.inl hlt
        · exact Or.inr ⟨heq, hx y (List.mem_cons_self _ _)⟩
      · have hy2 : h.2 ≤ y.2 := lexRankLT_snd_le (hht y hyt)
        have hx2 : x.2 ≤ y.2 := Nat.le_trans hle hy2
        rcases Nat.lt_or_eq_of_le hx2 with hlt | heq
        · exact Or.inl hlt
        · exact Or.inr ⟨heq, hx y (List.mem_cons_of_mem _ hyt)⟩
    · rw [List.orderedInsert, if_neg hle]
      refine List.pairwise_cons.mpr ⟨?_, ?_⟩
      · intro y hy
        have := (List.perm_orderedInsert queuedAtLE x t).mem_iff.mp hy
        rcases List.mem_cons.mp this with rfl | hyt
        · exact Or.inl (Nat.lt_of_not_le hle)
        · exact hht y hyt
      · exact ih hpt (fun y hy => hx y (List.mem_cons_of_mem _ hy))

theorem pairwise_lexRankLT_insertionSort :
    ∀ l : List PendingEntry, List.Pairwise idLt l →
      List.Pairwise lexRankLT (List.insertionSort queuedAtLE l) := by
  intro l
  induction l with
  | nil => intro _; simp [List.insertionSort]
  | cons x xs ih =>
    intro hpair
    rcases List.pairwise_cons.mp hpair with ⟨hxxs, hpxs⟩
    rw [List.insertionSort]
    refine pairwise_lexRankLT_orderedInsert x _ (ih hpxs) ?_
    intro y hy
    exact hxxs y ((List.perm_insertionSort queuedAtLE xs).subset hy)

theorem indexOfId_eq_neg_one {mid : String} :
    ∀ s : List PendingEntry, (∀ y ∈ s, y.1 ≠ mid) → indexOfId mid s = -1 := by
  intro s
  induction s with
  | nil => intro _; rfl
  | cons h t ih =>
    intro habs
    rw [indexOfId, if_neg (habs h (List.mem_cons_self _ _))]
    simp only [ih (fun y hy => habs y (List.mem_cons_of_mem _ hy))]
    simp

theorem indexOfId_eq_countP {mid : String} {target : PendingEntry}
    (hmid : target.1 = mid) :
    ∀ s : List PendingEntry, List.Pairwise lexRankLT s → target ∈ s →
      (∀ y ∈ s, y.1 = mid → y = target) →
      indexOfId mid s = (List.countP (fun y => decide (lexRankLT y target)) s : Int) := by
  intro s
  induction s with
  | nil => intro _ hmem _; exact absurd hmem (List.not_mem_nil _)
  | cons h t ih =>
    intro hpair hmem huniq
    rcases List.pairwise_cons.mp hpair with ⟨hht, hpt⟩
    by_cases hh : h.1 = mid
    · have hht2 : h = target := huniq h (List.mem_cons_self _ _) hh
      subst hht2
      rw [indexOfId, if_pos hh, List.countP_cons]
      have h0 : List.countP (fun y => decide (lexRankLT y h)) t = 0 := by
        refine List.countP_eq_zero.mpr ?_
        intro y hy
        simp only [decide_eq_true_eq]
        exact lexRankLT_asymm (hht y hy)
      simp [h0, lexRankLT_irrefl h]
    · have htarget_t : target ∈ t := by
        rcases List.mem_cons.mp hmem with rfl | ht
        · exact absurd hmid hh
        · exact ht
      have hrec := ih hpt htarget_t (fun y hy => huniq y (List.mem_cons_of_mem _ hy))
      rw [indexOfId, if_neg hh]
      have hpos : ¬ (indexOfId mid t = -1) := by
        rw [hrec]
        omega
      simp only [hrec] at hpos ⊢
      rw [if_neg hpos, List.countP_cons]
      have hlt : lexRankLT h target := hht target htarget_t
      simp [hlt]

end QueueManager

namespace QueueManager

theorem indexOfId_natCast {mid : String} :
    ∀ s : List PendingEntry, (∃ y ∈ s, y.1 = mid) →
      ∃ k : Nat, indexOfId mid s = (k : Int) := by
  intro s
  induction s with
  | nil => rintro ⟨y, hy, -⟩; exact absurd hy (List.not_mem_nil _)
  | cons h t ih =>
    rintro ⟨y, hy, hymid⟩
    by_cases hh : h.1 = mid
    · exact ⟨0, by rw [indexOfId, if_pos hh]; rfl⟩
    · have hyt : y ∈ t := by
        rcases List.mem_cons.mp hy with rfl | h2
        · exact absurd hymid hh
        · exact h2
      rcases ih ⟨y, hyt, hymid⟩ with ⟨k, hk⟩
      refine ⟨k + 1, ?_⟩
      rw [indexOfId, if_neg hh]
      simp only [hk]
      have hne : ¬ ((k : Int) = -1) := by omega
      rw [if_neg hne]
      omega

theorem mem_pendingAfterAdd (mid : String) (pending : List PendingEntry) (now : Nat) :
    (mid, now) ∈ pendingAfterAdd mid pending now :=
  (List.perm_orderedInsert idLE _ pending).mem_iff.mpr (List.mem_cons_self _ _)

theorem pendingAfterAdd_not_isEmpty (mid : String) (pending : List PendingEntry) (now : Nat) :
    (pendingAfterAdd mid pending now).isEmpty = false := by
  cases h : pendingAfterAdd mid pending now with
  | nil => exact absurd (h ▸ mem_pendingAfterAdd mid pending now) (List.not_mem_nil _)
  | cons a l => rfl

theorem getQueuePosition_after_add_natCast (mid : String)
    (pending : List PendingEntry) (now : Nat) :
    ∃ k : Nat, getQueuePosition (pendingAfterAdd mid pending now) mid = (k : Int) := by
  rw [getQueuePosition, pendingAfterAdd_not_isEmpty]
  simp only [Bool.false_eq_true, if_false]
  apply indexOfId_natCast
  refine ⟨(mid, now), ?_, rfl⟩
  exact (List.perm_insertionSort queuedAtLE _).mem_iff.mpr (mem_pendingAfterAdd mid pending now)

theorem getQueuePosition_not_mem (mid : String) (pending : List PendingEntry)
    (habs : mid ∉ pending.map Prod.fst) :
    getQueuePosition pending mid = -1 := by
  have hids : ∀ y ∈ pending, y.1 ≠ mid := by
    intro y hy he
    exact habs (he ▸ List.mem_map_of_mem Prod.fst hy)
  cases h : pending.isEmpty with
  | true => rw [getQueuePosition, h]; rfl
  | false =>
    rw [getQueuePosition, h]
    simp only [Bool.false_eq_true, if_false]
    apply indexOfId_eq_neg_one
    intro y hy
    exact hids y ((List.perm_insertionSort queuedAtLE pending).subset hy)

end QueueManager

/-! ## Direct channel: projection lemmas and the reachability invariant -/

namespace WhatsAppConnection

theorem scheduleReconnect_flags (j : Nat) (s : ConnState) :
    (scheduleReconnect j s).isConnected = s.isConnected
    ∧ (scheduleReconnect j s).isAuthenticated = s.isAuthenticated
    ∧ (scheduleReconnect j s).hasSock = s.hasSock := by
  unfold scheduleReconnect
  split
  · exact ⟨rfl, rfl, rfl⟩
  · split
    · exact ⟨rfl, rfl, rfl⟩
    · exact ⟨rfl, rfl, rfl⟩

theorem resetReconnectState_flags (s : ConnState) :
    (resetReconnectState s).isConnected = s.isConnected
    ∧ (resetReconnectState s).isAuthenticated = s.isAuthenticated
    ∧ (resetReconnectState s).hasSock = s.hasSock :=
  ⟨rfl, rfl, rfl⟩

theorem handleClose_isConnected (code : Option Nat) (j : Nat) (s : ConnState) :
    (handleClose code j s).isConnected = false := by
  unfold handleClose closeBase resetReconnectState scheduleReconnect
  split_ifs <;> rfl

theorem handleClose_hasSock (code : Option Nat) (j : Nat) (s : ConnState) :
    (handleClose code j s).hasSock = s.hasSock := by
  unfold handleClose closeBase resetReconnectState scheduleReconnect
  split_ifs <;> rfl

theorem handleOpen_flags (u : Option String) (s : ConnState) :
    (handleOpen u s).isConnected = true
    ∧ (handleOpen u s).isAuthenticated = true
    ∧ (handleOpen u s).hasSock = s.hasSock := by
  unfold handleOpen resetReconnectState
  cases u <;> exact ⟨rfl, rfl, rfl⟩

theorem fireRestartTimer_flags (j : Nat) (s : ConnState) :
    (fireRestartTimer j s).isConnected = s.isConnected
    ∧ (fireRestartTimer j s).isAuthenticated = s.isAuthenticated
    ∧ (fireRestartTimer j s).hasSock = s.hasSock := by
  unfold fireRestartTimer
  split
  · exact ⟨rfl, rfl, rfl⟩
  · exact (scheduleReconnect_flags j _)

/-- Data invariant of the connection state machine: the connected flag is
only up when the instance is authenticated and holds a socket. -/
def ConnInv (s : ConnState) : Prop :=
  s.isConnected = true → (s.isAuthenticated = true ∧ s.hasSock = true)

theorem reachable_inv {s : ConnState} (h : Reachable s) : ConnInv s := by
  induction h with
  | stepInit => intro hc; simp [initState] at hc
  | @stepConnectOk t _ ih => intro hc; exact ⟨(ih hc).1, rfl⟩
  | @stepConnectFail t j _ ih =>
    intro hc
    rw [connectFail, (scheduleReconnect_flags j _).1] at hc
    simp at hc
  | @stepQR t qr now _ hsock ih =>
    intro hc
    by_cases hq : t.connectionState ≠ "waiting_for_qr"
    · rw [handleQR, if_pos hq, (resetReconnectState_flags _).1] at hc
      simp at hc
    · have heq : handleQR qr now t = t := by rw [handleQR, if_neg hq]
      rw [heq] at hc ⊢
      exact ih hc
  | @stepClose t code j _ hsock ih =>
    intro hc
    rw [handleClose_isConnected] at hc
    simp at hc
  | @stepOpen t u _ hsock ih =>
    intro _
    exact ⟨(handleOpen_flags u t).2.1, (handleOpen_flags u t).2.2.trans hsock⟩
  | @stepConnecting t _ hsock ih =>
    intro hc
    simp [handleConnecting] at hc
  | @stepDisconnect t _ ih =>
    intro hc
    rw [disconnect, (resetReconnectState_flags _).1] at hc
    simp at hc
  | @stepForceReset t _ ih =>
    intro hc
    rw [forceReconnectReset, disconnect, (resetReconnectState_flags _).1] at hc
    simp at hc
  | @stepFireRestart t j _ ih =>
    intro hc
    rw [(fireRestartTimer_flags j _).1] at hc
    refine ⟨?_, ?_⟩
    · rw [(fireRestartTimer_flags j _).2.1]; exact (ih hc).1
    · rw [(fireRestartTimer_flags j _).2.2]; exact (ih hc).2
  | @stepFireTimerOk t h _ ih =>
    intro hc
    unfold fireReconnectTimerOk at hc ⊢
    by_cases hf : (t.timers.any fun x => decide (x.1 = h)) = true
    · rw [if_pos hf] at hc ⊢
      exact ⟨(ih hc).1, rfl⟩
    · rw [if_neg hf] at hc ⊢
      exact ih hc
  | @stepFireTimerFail t h j _ ih =>
    intro hc
    unfold fireReconnectTimerFail at hc ⊢
    by_cases hf : (t.timers.any fun x => decide (x.1 = h)) = true
    · rw [if_pos hf, connectFail, (scheduleReconnect_flags j _).1] at hc
      simp at hc
    · rw [if_neg hf] at hc ⊢
      exact ih hc

end WhatsAppConnection

/-! ## Claim theorems -/

/-- C6: the claim states the reconnect scheduler keeps at most one pending
reconnect timer and that a second closure event arriving before the pending
timer fires schedules no second timer.  The code violates this: the close
handler clears `isReconnecting` (line 168) before the guard at line 181 and
before `scheduleReconnect`'s own guard, and overwrites `reconnectTimeout`
without clearing the first timer, so a second non-logged-out closure leaves
TWO live reconnect timers.  This theorem evaluates the model at the failing
event sequence: connect, then two closures with status code 408 before any
timer fires. -/
theorem C6_second_closure_schedules_second_timer :
    (WhatsAppConnection.handleClose (some 408) 0
        (WhatsAppConnection.connectOk WhatsAppConnection.initState)).timers.length = 1
    ∧ (WhatsAppConnection.handleClose (some 408) 0
        (WhatsAppConnection.connectOk WhatsAppConnection.initState)).isReconnecting = true
    ∧ (WhatsAppConnection.handleClose (some 408) 0
        (WhatsAppConnection.handleClose (some 408) 0
          (WhatsAppConnection.connectOk WhatsAppConnection.initState))).timers.length = 2 := by
  refine ⟨rfl, rfl, rfl⟩

/-- C7 counterexample: the claim states a `restart required` closure
reconnects immediately, bypassing the exponential backoff delay.  In the
code the closure only resets the attempt counter and starts a fixed 1000 ms
timer whose callback goes through `scheduleReconnect`, which applies the
full base backoff delay: immediately after the closure no reconnect timer
exists at all, and once the 1000 ms timer fires the reconnect timer is
created with delay `calculateReconnectDelay 0 0 = 5000 ≠ 0` — the backoff
delay is not bypassed. -/
theorem C7_restart_required_counterexample :
    (WhatsAppConnection.handleClose (some 515) 0
        (WhatsAppConnection.connectOk WhatsAppConnection.initState)).timers = []
    ∧ (WhatsAppConnection.handleClose (some 515) 0
        (WhatsAppConnection.connectOk WhatsAppConnection.initState)).restartTimers = 1
    ∧ (WhatsAppConnection.handleClose (some 515) 0
        (WhatsAppConnection.connectOk WhatsAppConnection.initState)).reconnectAttempts = 0
    ∧ (WhatsAppConnection.fireRestartTimer 0
        (WhatsAppConnection.handleClose (some 515) 0
          (WhatsAppConnection.connectOk WhatsAppConnection.initState))).timers
        = [(0, 5000)]
    ∧ WhatsAppConnection.calculateReconnectDelay 0 0 = 5000
    ∧ (5000 : Nat) ≠ 0 := by
  refine ⟨rfl, rfl, rfl, rfl, rfl, by decide⟩

/-- C7 amended: on a `restart required` closure the attempt counter is
reset to 0 and no reconnect happens immediately; instead a fixed 1000 ms
timer is started, and when it fires the normal scheduler creates one
reconnect timer with the base backoff delay `5000 + jitter` (the counter
reset means the escalated exponential delays are avoided, but the base
delay is not). -/
theorem C7_amended_restart_resets_counter_then_base_backoff
    (s : WhatsAppConnection.ConnState) (j : Nat) :
    (WhatsAppConnection.handleClose (some WhatsAppConnection.restartRequired) j s).reconnectAttempts = 0
    ∧ (WhatsAppConnection.handleClose (some WhatsAppConnection.restartRequired) j s).restartTimers
        = s.restartTimers + 1
    ∧ (WhatsAppConnection.handleClose (some WhatsAppConnection.restartRequired) j s).timers = s.timers
    ∧ (WhatsAppConnection.fireRestartTimer j
        (WhatsAppConnection.handleClose (some WhatsAppConnection.restartRequired) j s)).timers
        = s.timers ++ [(s.nextHandle, WhatsAppConnection.BASE_RECONNECT_DELAY + j)]
    ∧ (WhatsAppConnection.fireRestartTimer j
        (WhatsAppConnection.handleClose (some WhatsAppConnection.restartRequired) j s)).reconnectAttempts
        = 0 := by
  cases s
  exact ⟨rfl, rfl, rfl, rfl, rfl⟩

/-- C3: the claim states the default `conditionalEnqueue` policy skips the
queue exactly when the worker is demonstrably alive and the queue is empty.
The code violates this: `getQueueStatus` computes `isServerAlive` but never
puts it on the returned status object, so `evaluateConditions` reads
`queueStatus.serverAlive` as `undefined` and the default policy ALWAYS
enqueues with reason `server_offline`.  This theorem evaluates the model at
the failing input: a fresh heartbeat (`alive`, seen now) and empty
`pending`/`processing` partitions — the worker is demonstrably alive and
idle, yet the message is enqueued. -/
theorem C3_conditional_add_enqueues_despite_alive_idle_worker :
    QueueManager.isServerAlive (some { alive := true, lastSeen := 1000 }) 1000 = true
    ∧ (QueueManager.getQueueStatus 0 0 (some { alive := true, lastSeen := 1000 }) 1000).totalMessages = 0
    ∧ (QueueManager.getQueueStatus 0 0 (some { alive := true, lastSeen := 1000 }) 1000).serverAlive = none
    ∧ QueueManager.evaluateConditions
        (QueueManager.getQueueStatus 0 0 (some { alive := true, lastSeen := 1000 }) 1000) none
        = (true, "server_offline")
    ∧ QueueManager.conditionalAdd
        (QueueManager.getQueueStatus 0 0 (some { alive := true, lastSeen := 1000 }) 1000) none
        ("m1") [] 1000 true
        = Except.ok
            { success := true
              method := "queued"
              reason := none
              messageId := some ("m1")
              position := some 0 } := by
  refine ⟨rfl, rfl, rfl, rfl, rfl⟩

/-- C8: in every state the connection can actually reach, `sendMessage`
dispatches exactly when the channel is connected (and then it is also
authenticated, by the reachability invariant), and in every other state it
fails with the `WhatsApp not connected` (`ChannelNotReady`) error without
dispatching. -/
theorem C8_send_only_when_connected_and_authenticated
    (s : WhatsAppConnection.ConnState) (hs : WhatsAppConnection.Reachable s)
    (sockOutcome : Except String String) (now : Nat) :
    (¬ (s.isConnected = true ∧ s.isAuthenticated = true) →
      WhatsAppConnection.sendMessage s sockOutcome now
        = Except.error ("WhatsApp not connected"))
    ∧ ((s.isConnected = true ∧ s.isAuthenticated = true) →
      WhatsAppConnection.sendMessage s sockOutcome now
        = WhatsAppConnection.dispatchOutcome sockOutcome now)
    ∧ (∀ r, WhatsAppConnection.sendMessage s sockOutcome now = Except.ok r →
      s.isConnected = true ∧ s.isAuthenticated = true) := by
  have inv := WhatsAppConnection.reachable_inv hs
  refine ⟨?_, ?_, ?_⟩
  · intro hna
    cases hconn : s.isConnected with
    | false =>
      unfold WhatsAppConnection.sendMessage
      rw [if_pos (Or.inl hconn)]
    | true => exact absurd ⟨hconn, (inv hconn).1⟩ hna
  · rintro ⟨hconn, -⟩
    have hsock := (inv hconn).2
    unfold WhatsAppConnection.sendMessage
    rw [if_neg ?_]
    rintro (h | h)
    · rw [hconn] at h; exact Bool.noConfusion h
    · rw [hsock] at h; exact Bool.noConfusion h
  · intro r hr
    by_cases hca : s.isConnected = true ∧ s.isAuthenticated = true
    · exact hca
    · exfalso
      cases hconn : s.isConnected with
      | false =>
        unfold WhatsAppConnection.sendMessage at hr
        rw [if_pos (Or.inl hconn)] at hr
        exact Except.noConfusion hr
      | true => exact hca ⟨hconn, (inv hconn).1⟩

/-- Witness for C8 at the initial (disconnected) state. -/
theorem C8_witness :
    WhatsAppConnection.sendMessage WhatsAppConnection.initState (Except.ok ("k1")) 5
      = Except.error ("WhatsApp not connected") :=
  (C8_send_only_when_connected_and_authenticated WhatsAppConnection.initState
    WhatsAppConnection.Reachable.stepInit (Except.ok ("k1")) 5).1 (by decide)

/-- C1: under smart routing the decision predicate is exactly
`!isHealthy OR pending > queueThreshold OR processing > 0` (with the
constructor defaulting `queueThreshold` to 0); whenever it holds and the
store write succeeds, `sendMessage` returns the enqueue result, whose
`method` is `queued` and whose `success` is `true`; whenever it does not
hold, `sendMessage` attempts direct delivery through
`sendDirectWithFallback`. -/
theorem C1_smart_routing_queue_decision
    (isHealthy : Bool) (qs : QueueManager.QueueStatus) (threshold : Nat)
    (direct : Except String String) (mid : String)
    (pending : List QueueManager.PendingEntry) (now : Nat) :
    Whaple.shouldUseQueue isHealthy qs threshold
      = (!isHealthy || decide (qs.pendingMessages > threshold)
          || decide (qs.processingMessages > 0))
    ∧ Whaple.queueThresholdOrDefault none = 0
    ∧ (Whaple.shouldUseQueue isHealthy qs threshold = true →
        Whaple.sendMessageSmart isHealthy qs threshold direct mid pending now true
          = QueueManager.addMessage mid pending now true
        ∧ Whaple.sendMessageSmart isHealthy qs threshold direct mid pending now true
          = Except.ok (QueueManager.addOkResult mid pending now)
        ∧ (QueueManager.addOkResult mid pending now).method = "queued"
        ∧ (QueueManager.addOkResult mid pending now).success = true)
    ∧ (Whaple.shouldUseQueue isHealthy qs threshold = false →
        Whaple.sendMessageSmart isHealthy qs threshold direct mid pending now true
          = Whaple.sendDirectWithFallback direct
              (QueueManager.addMessage mid pending now true) now) := by
  refine ⟨rfl, rfl, ?_, ?_⟩
  · intro hq
    refine ⟨?_, ?_, rfl, rfl⟩
    · simp [Whaple.sendMessageSmart, Whaple.smartRoutingDecision, QueueManager.addMessage, hq]
    · simp [Whaple.sendMessageSmart, Whaple.smartRoutingDecision, QueueManager.addMessage, hq]
  · intro hq
    cases direct with
    | ok dmid =>
      simp [Whaple.sendMessageSmart, Whaple.smartRoutingDecision,
        Whaple.sendDirectWithFallback, hq]
    | error e =>
      simp [Whaple.sendMessageSmart, Whaple.smartRoutingDecision,
        Whaple.sendDirectWithFallback, QueueManager.addMessage, hq]

/-- Witness for C1: unhealthy backend forces the queue path. -/
theorem C1_witness :
    Whaple.shouldUseQueue false
        { totalMessages := 0, pendingMessages := 0, processingMessages := 0,
          sentMessages := 0, failedMessages := 0, isProcessing := false,
          serverAlive := none } 0 = true
    ∧ (Whaple.sendMessageSmart false
          { totalMessages := 0, pendingMessages := 0, processingMessages := 0,
            sentMessages := 0, failedMessages := 0, isProcessing := false,
            serverAlive := none } 0 (Except.error ("down")) ("m1") [] 7 true
        = QueueManager.addMessage ("m1") [] 7 true
      ∧ Whaple.sendMessageSmart false
          { totalMessages := 0, pendingMessages := 0, processingMessages := 0,
            sentMessages := 0, failedMessages := 0, isProcessing := false,
            serverAlive := none } 0 (Except.error ("down")) ("m1") [] 7 true
        = Except.ok (QueueManager.addOkResult ("m1") [] 7)
      ∧ (QueueManager.addOkResult ("m1") [] 7).method = "queued"
      ∧ (QueueManager.addOkResult ("m1") [] 7).success = true) :=
  ⟨rfl,
    (C1_smart_routing_queue_decision false
      { totalMessages := 0, pendingMessages := 0, processingMessages := 0,
        sentMessages := 0, failedMessages := 0, isProcessing := false,
        serverAlive := none } 0 (Except.error ("down")) ("m1") [] 7).2.2.1 rfl⟩

/-- C9: every failing probe outcome (timeout, network error, non-200
status) makes `isServerHealthy` return `false` — as a total function, it
reports the failure as a value, never as a thrown error — and feeding that
boolean to the smart-routing path routes the message to the queue,
returning the `method = 'queued'` enqueue result rather than throwing. -/
theorem C9_probe_failure_unhealthy_and_queued
    (cache : HealthChecker.HealthCache) (now : Nat) (probe : HealthChecker.ProbeOutcome)
    (qs : QueueManager.QueueStatus) (threshold : Nat) (direct : Except String String)
    (mid : String) (pending : List QueueManager.PendingEntry) (nowQ : Nat)
    (hcache : HealthChecker.isCacheValid cache now = false)
    (hfail : probe = HealthChecker.ProbeOutcome.timeout
      ∨ probe = HealthChecker.ProbeOutcome.networkError
      ∨ ∃ c, c ≠ 200 ∧ probe = HealthChecker.ProbeOutcome.response c) :
    (HealthChecker.isServerHealthy cache now probe).1 = false
    ∧ Whaple.sendMessageSmart (HealthChecker.isServerHealthy cache now probe).1 qs threshold
        direct mid pending nowQ true
      = Except.ok (QueueManager.addOkResult mid pending nowQ)
    ∧ (QueueManager.addOkResult mid pending nowQ).method = "queued" := by
  have hfalse : (HealthChecker.isServerHealthy cache now probe).1 = false := by
    unfold HealthChecker.isServerHealthy
    rw [hcache]
    simp only [Bool.false_eq_true, if_false]
    rcases hfail with rfl | rfl | ⟨c, hc, rfl⟩
    · rfl
    · rfl
    · simp [HealthChecker.checkServerHealth, hc]
  refine ⟨hfalse, ?_, rfl⟩
  rw [hfalse]
  have hq : Whaple.shouldUseQueue false qs threshold = true := by
    unfold Whaple.shouldUseQueue
    simp
  simp [Whaple.sendMessageSmart, Whaple.smartRoutingDecision, QueueManager.addMessage, hq]

/-- Witness for C9 with a fresh cache and a timed-out probe. -/
theorem C9_witness :
    (HealthChecker.isServerHealthy HealthChecker.initialCache 0
        HealthChecker.ProbeOutcome.timeout).1 = false
    ∧ Whaple.sendMessageSmart
        (HealthChecker.isServerHealthy HealthChecker.initialCache 0
          HealthChecker.ProbeOutcome.timeout).1
        { totalMessages := 0, pendingMessages := 0, processingMessages := 0,
          sentMessages := 0, failedMessages := 0, isProcessing := false,
          serverAlive := none } 0 (Except.ok ("id9")) ("m9") [] 7 true
      = Except.ok (QueueManager.addOkResult ("m9") [] 7)
    ∧ (QueueManager.addOkResult ("m9") [] 7).method = "queued" :=
  C9_probe_failure_unhealthy_and_queued HealthChecker.initialCache 0
    HealthChecker.ProbeOutcome.timeout
    { totalMessages := 0, pendingMessages := 0, processingMessages := 0,
      sentMessages := 0, failedMessages := 0, isProcessing := false,
      serverAlive := none } 0 (Except.ok ("id9")) ("m9") [] 7 rfl (Or.inl rfl)

/-- C10 (implicit): for every successful enqueue of a fresh message id, the
`position` field persisted in the pending record is `-1` regardless of the
queue contents, because it is computed by `getQueuePosition` before the
write, when the id is not yet in the partition; the position returned to
the caller is recomputed after the write and is a genuine non-negative
rank. -/
theorem C10_persisted_position_is_minus_one
    (mid : String) (pending : List QueueManager.PendingEntry) (now : Nat)
    (habs : mid ∉ pending.map Prod.fst) :
    (QueueManager.storedQueueData mid pending now).position = -1
    ∧ QueueManager.addMessage mid pending now true
        = Except.ok (QueueManager.addOkResult mid pending now)
    ∧ (QueueManager.addOkResult mid pending now).position
        = some (QueueManager.getQueuePosition (QueueManager.pendingAfterAdd mid pending now) mid)
    ∧ ∃ k : Nat,
        QueueManager.getQueuePosition (QueueManager.pendingAfterAdd mid pending now) mid
          = (k : Int) := by
  refine ⟨?_, rfl, rfl, QueueManager.getQueuePosition_after_add_natCast mid pending now⟩
  show QueueManager.getQueuePosition pending mid = -1
  exact QueueManager.getQueuePosition_not_mem mid pending habs

/-- Witness for C10 on a one-element pending partition. -/
theorem C10_witness :
    (("b" : String) ∉ ([(("a" : String), 5)] : List QueueManager.PendingEntry).map Prod.fst)
    ∧ (QueueManager.storedQueueData ("b") [(("a" : String), 5)] 9).position = -1 :=
  ⟨by decide,
    (C10_persisted_position_is_minus_one ("b") [(("a" : String), 5)] 9 (by decide)).1⟩

/-- Every result the smart-routing path returns (rather than throws) has
`success = true`: the queue branch returns `addMessage`'s success record,
the direct branch returns a direct success, and the fallback branch copies
the fallback enqueue's `success`, which is `true` whenever the enqueue
succeeded. -/
theorem sendMessageSmart_ok_success
    (isHealthy : Bool) (qs : QueueManager.QueueStatus) (threshold : Nat)
    (direct : Except String String) (mid : String)
    (pending : List QueueManager.PendingEntry) (now : Nat) (writeOk : Bool)
    (r : SendMessageResult)
    (hr : Whaple.sendMessageSmart isHealthy qs threshold direct mid pending now writeOk
      = Except.ok r) : r.success = true := by
  by_cases hq : Whaple.shouldUseQueue isHealthy qs threshold = true
  · cases writeOk with
    | true =>
      simp [Whaple.sendMessageSmart, Whaple.smartRoutingDecision,
        QueueManager.addMessage, hq] at hr
      rw [← hr]
      rfl
    | false =>
      simp [Whaple.sendMessageSmart, Whaple.smartRoutingDecision,
        QueueManager.addMessage, hq] at hr
  · have hq2 : Whaple.shouldUseQueue isHealthy qs threshold = false :=
      Bool.eq_false_iff.mpr hq
    cases direct with
    | ok dmid =>
      simp [Whaple.sendMessageSmart, Whaple.smartRoutingDecision,
        Whaple.sendDirectWithFallback, hq2] at hr
      rw [← hr]
    | error e =>
      cases writeOk with
      | true =>
        simp [Whaple.sendMessageSmart, Whaple.smartRoutingDecision,
          Whaple.sendDirectWithFallback, QueueManager.addMessage, hq2] at hr
        rw [← hr]
        rfl
      | false =>
        simp [Whaple.sendMessageSmart, Whaple.smartRoutingDecision,
          Whaple.sendDirectWithFallback, QueueManager.addMessage, hq2] at hr

/-- C2: under smart routing, when the direct attempt fails and the fallback
enqueue succeeds, `sendMessage` returns `success = true` with `method`,
`messageId`, `timestamp` and `position` taken from the fallback enqueue
result and the original direct-path error recorded in `error`; every
returned result has `success = true`, and on the direct path a failure
outcome (a thrown error) occurs only when the direct attempt failed AND the
fallback enqueue failed. -/
theorem C2_direct_failure_falls_back_to_queue
    (isHealthy : Bool) (qs : QueueManager.QueueStatus) (threshold : Nat)
    (direct : Except String String) (mid : String)
    (pending : List QueueManager.PendingEntry) (now : Nat) (writeOk : Bool)
    (e : String) :
    (Whaple.shouldUseQueue isHealthy qs threshold = false →
      Whaple.sendMessageSmart isHealthy qs threshold (Except.error e) mid pending now true
        = Except.ok
            { success := true
              method := (QueueManager.addOkResult mid pending now).method
              messageId := (QueueManager.addOkResult mid pending now).messageId
              timestamp := (QueueManager.addOkResult mid pending now).timestamp
              position := (QueueManager.addOkResult mid pending now).position
              error := some ("Fallback: " ++ e) })
    ∧ (∀ r, Whaple.sendMessageSmart isHealthy qs threshold direct mid pending now writeOk
        = Except.ok r → r.success = true)
    ∧ (Whaple.shouldUseQueue isHealthy qs threshold = false →
      ∀ msg, Whaple.sendMessageSmart isHealthy qs threshold direct mid pending now writeOk
          = Except.error msg →
        (∃ de, direct = Except.error de) ∧ writeOk = false) := by
  refine ⟨?_, ?_, ?_⟩
  · intro hq
    simp [Whaple.sendMessageSmart, Whaple.smartRoutingDecision,
      Whaple.sendDirectWithFallback, QueueManager.addMessage, hq]
    rfl
  · exact fun r hr =>
      sendMessageSmart_ok_success isHealthy qs threshold direct mid pending now writeOk r hr
  · intro hq msg hmsg
    cases direct with
    | ok dmid =>
      exfalso
      simp [Whaple.sendMessageSmart, Whaple.smartRoutingDecision,
        Whaple.sendDirectWithFallback, hq] at hmsg
    | error de =>
      refine ⟨⟨de, rfl⟩, ?_⟩
      cases writeOk with
      | true =>
        exfalso
        simp [Whaple.sendMessageSmart, Whaple.smartRoutingDecision,
          Whaple.sendDirectWithFallback, QueueManager.addMessage, hq] at hmsg
      | false => rfl

/-- Witness for C2: healthy backend and idle queue (so the direct path is
taken), direct send throws, fallback enqueue succeeds. -/
theorem C2_witness :
    Whaple.shouldUseQueue true
        { totalMessages := 0, pendingMessages := 0, processingMessages := 0,
          sentMessages := 0, failedMessages := 0, isProcessing := false,
          serverAlive := none } 0 = false
    ∧ Whaple.sendMessageSmart true
        { totalMessages := 0, pendingMessages := 0, processingMessages := 0,
          sentMessages := 0, failedMessages := 0, isProcessing := false,
          serverAlive := none } 0 (Except.error ("boom")) ("m2") [] 4 true
      = Except.ok
          { success := true
            method := (QueueManager.addOkResult ("m2") [] 4).method
            messageId := (QueueManager.addOkResult ("m2") [] 4).messageId
            timestamp := (QueueManager.addOkResult ("m2") [] 4).timestamp
            position := (QueueManager.addOkResult ("m2") [] 4).position
            error := some ("Fallback: " ++ "boom") } :=
  ⟨rfl,
    (C2_direct_failure_falls_back_to_queue true
      { totalMessages := 0, pendingMessages := 0, processingMessages := 0,
        sentMessages := 0, failedMessages := 0, isProcessing := false,
        serverAlive := none } 0 (Except.error ("boom")) ("m2") [] 4 true ("boom")).1 rfl⟩

/-- C5: for every pending-partition state (its canonical key-ordered
enumeration, keys distinct) and every message id, `getQueuePosition` — the
stable `queuedAt` sort of the partition keys followed by `indexOf` — equals
the spec's rank: the 0-based position under ascending `queuedAt` with ties
broken by lexical id order, and `-1` when the id is not in the partition. -/
theorem C5_queue_position_is_spec_rank
    (pending : List QueueManager.PendingEntry) (mid : String)
    (hsort : List.Pairwise QueueManager.idLt pending) :
    QueueManager.getQueuePosition pending mid
      = QueueManager.specQueuePosition pending mid := by
  unfold QueueManager.getQueuePosition QueueManager.specQueuePosition
  cases hfind : pending.find? (fun y => y.1 == mid) with
  | none =>
    have habs : ∀ y ∈ pending, y.1 ≠ mid := by
      intro y hy
      have h := List.find?_eq_none.mp hfind y hy
      simpa using h
    cases hemp : pending.isEmpty with
    | true => simp
    | false =>
      simp only [Bool.false_eq_true, if_false]
      apply QueueManager.indexOfId_eq_neg_one
      intro y hy
      exact habs y ((List.perm_insertionSort QueueManager.queuedAtLE pending).subset hy)
  | some target =>
    have hptarget : target.1 = mid := by
      have h := List.find?_some hfind
      simpa using h
    have hmem : target ∈ pending := List.mem_of_find?_eq_some hfind
    have hnonempty : pending.isEmpty = false := by
      cases pending with
      | nil => exact absurd hmem (List.not_mem_nil _)
      | cons a l => rfl
    have hnefst : List.Pairwise (fun a b : QueueManager.PendingEntry => a.1 ≠ b.1) pending :=
      hsort.imp (fun h => charsLt_ne h)
    have hsymm : Symmetric (fun a b : QueueManager.PendingEntry => a.1 ≠ b.1) :=
      fun _ _ h e => h e.symm
    have huniq : ∀ y ∈ pending, y.1 = mid → y = target := by
      intro y hy hymid
      by_contra hne2
      exact (List.Pairwise.forall hsymm hnefst hy hmem hne2) (hymid.trans hptarget.symm)
    rw [hnonempty]
    simp only [Bool.false_eq_true, if_false]
    have hpair := QueueManager.pairwise_lexRankLT_insertionSort pending hsort
    have hperm := List.perm_insertionSort QueueManager.queuedAtLE pending
    have hmems : target ∈ List.insertionSort QueueManager.queuedAtLE pending :=
      hperm.mem_iff.mpr hmem
    have huniqs : ∀ y ∈ List.insertionSort QueueManager.queuedAtLE pending,
        y.1 = mid → y = target :=
      fun y hy => huniq y (hperm.subset hy)
    rw [QueueManager.indexOfId_eq_countP hptarget _ hpair hmems huniqs]
    exact congrArg Nat.cast (List.Perm.countP_eq _ hperm)

/-- Witness for C5: a three-record partition with a `queuedAt` tie between
ids `b` and `c`; the record with id `c` ranks second (position 1). -/
theorem C5_witness :
    List.Pairwise QueueManager.idLt
        ([(("a" : String), 5), (("b" : String), 3), (("c" : String), 3)]
          : List QueueManager.PendingEntry)
    ∧ QueueManager.getQueuePosition
        [(("a" : String), 5), (("b" : String), 3), (("c" : String), 3)] ("c")
      = QueueManager.specQueuePosition
          [(("a" : String), 5), (("b" : String), 3), (("c" : String), 3)] ("c")
    ∧ QueueManager.getQueuePosition
        [(("a" : String), 5), (("b" : String), 3), (("c" : String), 3)] ("c") = 1 :=
  ⟨by decide,
    C5_queue_position_is_spec_rank
      [(("a" : String), 5), (("b" : String), 3), (("c" : String), 3)] ("c") (by decide),
    by decide⟩


/-- Characters kept by the normalizer from a list that contains no `+` are
all digits. -/
theorem filter_no_plus_all_digit (cs : List Char)
    (H : cs.all (fun c => c != '+') = true) :
    (cs.filter (fun c => c.isDigit || c == '+')).all Char.isDigit = true := by
  rw [List.all_eq_true] at H ⊢
  intro c hc
  rcases List.mem_filter.mp hc with ⟨hcs, hp⟩
  rcases Bool.or_eq_true_iff.mp hp with hd | he
  · exact hd
  · exfalso
    have hcne := H c hcs
    rw [beq_iff_eq] at he
    subst he
    simp at hcne

/-- Branch-free description of `normalizePhoneNumber` on non-empty input:
keep digits and `+`, then prepend `+` unless the kept characters already
start with one. -/
theorem normalizePhoneNumber_eq_filter (s : String) (hs : s ≠ "") :
    Whaple.normalizePhoneNumber s
      = Except.ok (String.mk
          (if (s.toList.filter (fun c => c.isDigit || c == '+')).head? = some '+'
           then s.toList.filter (fun c => c.isDigit || c == '+')
           else '+' :: s.toList.filter (fun c => c.isDigit || c == '+'))) := by
  unfold Whaple.normalizePhoneNumber
  rw [if_neg hs]

/-- C4 counterexample: the claim states that for EVERY non-empty
destination the normalizer yields `+` followed only by digits.  The input
`1+2` is non-empty, yet `normalizePhoneNumber` keeps the interior `+`
(the filter keeps every `+`, and only a missing LEADING `+` is prepended),
producing `+1+2`, which is not `+` followed only by digits. -/
theorem C4_normalize_counterexample :
    Whaple.normalizePhoneNumber ("1+2") = Except.ok ("+1+2")
    ∧ Whaple.specCanonicalForm ("+1+2") = false := by
  refine ⟨rfl, rfl⟩

/-- C4 amended: for every non-empty destination `d`, `normalize(d)` begins
with `+` and is idempotent (`normalize(normalize(d)) = normalize(d)`); the
"followed only by digits" half holds under the additional hypothesis the
counterexample forces, namely that `d` contains no `+` after its first
character. -/
theorem C4_normalize_amended (s : String) (hs : s ≠ "") :
    ∃ r, Whaple.normalizePhoneNumber s = Except.ok r
      ∧ r.data.head? = some '+'
      ∧ Whaple.normalizePhoneNumber r = Except.ok r
      ∧ (Whaple.noPlusAfterFirstChar s = true → Whaple.specCanonicalForm r = true) := by
  have hnorm := normalizePhoneNumber_eq_filter s hs
  by_cases hplus : (s.toList.filter (fun c => c.isDigit || c == '+')).head? = some '+'
  · rw [if_pos hplus] at hnorm
    refine ⟨String.mk (s.toList.filter (fun c => c.isDigit || c == '+')), hnorm, hplus, ?_, ?_⟩
    · have hne : String.mk (s.toList.filter (fun c => c.isDigit || c == '+')) ≠ "" := by
        intro h
        have hdata : s.toList.filter (fun c => c.isDigit || c == '+') = [] :=
          congrArg String.data h
        rw [hdata] at hplus
        exact Option.noConfusion hplus
      rw [normalizePhoneNumber_eq_filter _ hne]
      have hfix : (String.mk (s.toList.filter (fun c => c.isDigit || c == '+'))).toList.filter
            (fun c => c.isDigit || c == '+')
          = s.toList.filter (fun c => c.isDigit || c == '+') :=
        List.filter_eq_self.mpr
          (fun a ha => List.of_mem_filter (p := fun c => c.isDigit || c == '+') ha)
      rw [hfix, if_pos hplus]
    · intro hH
      cases hsl : s.toList with
      | nil =>
        exfalso
        apply hs
        exact congrArg String.mk hsl
      | cons c0 cs =>
        have HC : cs.all (fun c => c != '+') = true := by
          have h2 : (s.toList.drop 1).all (fun c => c != '+') = true := hH
          rw [hsl] at h2
          exact h2
        rw [hsl] at hplus
        rw [List.filter_cons] at hplus ⊢
        by_cases hc0 : (c0.isDigit || c0 == '+') = true
        · rw [if_pos hc0] at hplus ⊢
          have hc0plus : c0 = '+' := by simpa using hplus
          subst hc0plus
          show (('+' == '+') && (cs.filter (fun c => c.isDigit || c == '+')).all Char.isDigit)
            = true
          rw [show ('+' == '+') = true from rfl, Bool.true_and]
          exact filter_no_plus_all_digit cs HC
        · exfalso
          rw [if_neg hc0] at hplus
          cases hk2 : cs.filter (fun c => c.isDigit || c == '+') with
          | nil => rw [hk2] at hplus; exact Option.noConfusion hplus
          | cons d ds =>
            have hd : d = '+' := by
              rw [hk2] at hplus
              simpa using hplus
            have hdmem : d ∈ cs := by
              have hmemf : d ∈ cs.filter (fun c => c.isDigit || c == '+') := by
                rw [hk2]
                exact List.mem_cons_self d ds
              exact (List.mem_filter.mp hmemf).1
            have hdne := List.all_eq_true.mp HC d hdmem
            rw [hd] at hdne
            simp at hdne
  · rw [if_neg hplus] at hnorm
    refine ⟨String.mk ('+' :: s.toList.filter (fun c => c.isDigit || c == '+')),
      hnorm, rfl, ?_, ?_⟩
    · have hne : String.mk ('+' :: s.toList.filter (fun c => c.isDigit || c == '+')) ≠ "" := by
        intro h
        exact List.noConfusion (congrArg String.data h)
      rw [normalizePhoneNumber_eq_filter _ hne]
      have hfix : (String.mk ('+' :: s.toList.filter (fun c => c.isDigit || c == '+'))).toList.filter
            (fun c => c.isDigit || c == '+')
          = '+' :: s.toList.filter (fun c => c.isDigit || c == '+') := by
        rw [show (String.mk ('+' :: s.toList.filter (fun c => c.isDigit || c == '+'))).toList
            = '+' :: s.toList.filter (fun c => c.isDigit || c == '+') from rfl]
        rw [List.filter_cons, if_pos (show (('+' : Char).isDigit || ('+' : Char) == '+') = true from rfl)]
        congr 1
        exact List.filter_eq_self.mpr
          (fun a ha => List.of_mem_filter (p := fun c => c.isDigit || c == '+') ha)
      rw [hfix]
      rw [if_pos (show ('+' :: s.toList.filter (fun c => c.isDigit || c == '+')).head?
          = some '+' from rfl)]
    · intro hH
      cases hsl : s.toList with
      | nil =>
        exfalso
        apply hs
        exact congrArg String.mk hsl
      | cons c0 cs =>
        have HC : cs.all (fun c => c != '+') = true := by
          have h2 : (s.toList.drop 1).all (fun c => c != '+') = true := hH
          rw [hsl] at h2
          exact h2
        rw [hsl] at hplus
        rw [List.filter_cons] at hplus ⊢
        show (('+' == '+')
            && (if (c0.isDigit || c0 == '+') = true
                then c0 :: cs.filter (fun c => c.isDigit || c == '+')
                else cs.filter (fun c => c.isDigit || c == '+')).all Char.isDigit) = true
        rw [show ('+' == '+') = true from rfl, Bool.true_and]
        by_cases hc0 : (c0.isDigit || c0 == '+') = true
        · rw [if_pos hc0] at hplus ⊢
          have hc0d : c0.isDigit = true := by
            rcases Bool.or_eq_true_iff.mp hc0 with hd | he
            · exact hd
            · exfalso
              rw [beq_iff_eq] at he
              subst he
              exact hplus rfl
          rw [List.all_cons, hc0d, Bool.true_and]
          exact filter_no_plus_all_digit cs HC
        · rw [if_neg hc0]
          exact filter_no_plus_all_digit cs HC

/-- Witness for C4 on a formatted US number. -/
theorem C4_witness :
    (("(123) 456-7890" : String) ≠ "")
    ∧ ∃ r, Whaple.normalizePhoneNumber ("(123) 456-7890") = Except.ok r
        ∧ r.data.head? = some '+'
        ∧ Whaple.normalizePhoneNumber r = Except.ok r
        ∧ (Whaple.noPlusAfterFirstChar ("(123) 456-7890") = true
            → Whaple.specCanonicalForm r = true) :=
  ⟨by decide, C4_normalize_amended ("(123) 456-7890") (by decide)⟩
